import Mathlib

/-!
A shallow embedding of the semantic-resolution core of a SQL query engine
(go-mysql-server): the star-expansion analyzer rule, system/user variable
expressions, the SET statement, replication-control plan nodes and the view
registry, together with theorems checking the natural-language specification
against this embedding.
-/

namespace GMS

/-- SQL value types (`sql.Type`): the constructors the development needs,
plus an opaque tag for every other type. -/
inductive SqlType where
  | longText
  | int64
  | null
  | otherType (tag : Nat)
deriving DecidableEq, Repr

/-- A runtime SQL value (Go `interface{}` as used by variable stores). -/
inductive Value where
  | str (s : String)
  | int (i : Int)
  | null
  | otherValue (tag : Nat)
deriving DecidableEq, Repr

/-- The error kinds the embedded operations can return (`sql.ErrTableNotFound`,
`sql.ErrUnknownSystemVariable`, `ErrExistingView`, `ErrNonExistingView`, the
"no replication controller available" error, and an opaque rest). -/
inductive SqlError where
  | tableNotFound (name : String)
  | unknownSystemVariable (name : String)
  | existingView (name : String)
  | nonExistingView (name : String)
  | noReplicationController
  | otherError (tag : Nat)
deriving DecidableEq, Repr

/-- Go's `strings.ToLower`, embedded over the string's character list. -/
def lowerString (s : String) : String := String.mk (s.data.map Char.toLower)

/-! ## Schemas and expressions (star expansion, expand_stars.go) -/

/-- One column of a schema (`sql.Column`): the fields star expansion reads
(`Name`, `Source`, `Type`, `Nullable`). -/
structure Column where
  name : String
  source : String
  typ : SqlType
  nullable : Bool
deriving DecidableEq, Repr

/-- The expression forms star expansion distinguishes: `expression.Star`
(with its `Table` qualifier, empty for an unqualified `*`), the qualified
field reference `expression.GetField` it generates, and any other
expression, which the rule passes through unchanged.  `otherExpr` carries a
resolvedness flag because the analyzer only asks other expressions whether
they are resolved. -/
inductive Expr where
  | star (table : String)
  | getField (index : Nat) (typ : SqlType) (table : String) (name : String) (nullable : Bool)
  | otherExpr (tag : Nat) (resolvedFlag : Bool)
deriving DecidableEq, Repr

/-- `expression.NewGetFieldWithTable(index, fieldType, table, fieldName, nullable)`. -/
def NewGetFieldWithTable (index : Nat) (typ : SqlType) (table name : String)
    (nullable : Bool) : Expr :=
  Expr.getField index typ table name nullable

/-- The alias map built by `getTableAliases` (lower-cased name to table).
`expandStarsForExpressions` receives it but never reads it, exactly as in
the source. -/
def TableAliases := List (String × String)

/-- The inner loop of `expandStarsForExpressions` (expand_stars.go lines
59-68): walk the child schema with its running index `i`, and for each
column whose lower-cased `Source` matches the star's lower-cased `Table`
(or unconditionally when the star has no table qualifier) emit a
`GetField` carrying the schema index and the column's type, source, name
and nullability. -/
def starMatchesFrom (table : String) (i : Nat) : List Column → List Expr
  | [] => []
  | col :: rest =>
    if table == "" || lowerString table == lowerString col.source then
      NewGetFieldWithTable i col.typ col.source col.name col.nullable ::
        starMatchesFrom table (i + 1) rest
    else
      starMatchesFrom table (i + 1) rest

/-- The expressions one star expands to over a full child schema. -/
def starMatches (table : String) (schema : List Column) : List Expr :=
  starMatchesFrom table 0 schema

/-- `expandStarsForExpressions` (expand_stars.go lines 55-82): replace each
`Star` in the projection list by its matches against the child schema,
failing with `ErrTableNotFound` when a qualified star matches no column;
every non-star expression is kept in place.  The `tableAliases` parameter
is accepted and, as in the source, never read. -/
def expandStarsForExpressions : List Expr → List Column → TableAliases →
    Except SqlError (List Expr)
  | [], _, _ => Except.ok []
  | Expr.star t :: rest, schema, aliases =>
    if (starMatches t schema).isEmpty && !(t == "") then
      Except.error (SqlError.tableNotFound t)
    else
      match expandStarsForExpressions rest schema aliases with
      | Except.error e => Except.error e
      | Except.ok tail => Except.ok (starMatches t schema ++ tail)
  | e :: rest, schema, aliases =>
    match expandStarsForExpressions rest schema aliases with
    | Except.error e => Except.error e
    | Except.ok tail => Except.ok (e :: tail)

/-- The per-expression view of star expansion: a star becomes its matches,
any other expression stays in place. -/
def expandOneExpr (schema : List Column) : Expr → List Expr
  | Expr.star t => starMatches t schema
  | e => [e]


/-! ## Plan nodes and the star-expansion rule (expand_stars.go lines 12-53) -/

/-- Expression resolvedness (`Expression.Resolved`).  Modelled from the
spec: fully bound references are resolved, a wildcard is not; `otherExpr`
carries its own flag. -/
def Expr.resolved : Expr → Bool
  | Expr.star _ => false
  | Expr.getField _ _ _ _ _ => true
  | Expr.otherExpr _ r => r

/-- The plan-node shapes the star-expansion rule distinguishes:
`plan.Project` (whose `Projections` it expands), `plan.GroupBy` (whose
`SelectedExprs` it expands), and every other node, embedded as a leaf
carrying its own resolvedness flag and schema. -/
inductive Node where
  | project (projections : List Expr) (child : Node)
  | groupBy (selectedExprs groupByExprs : List Expr) (child : Node)
  | leaf (resolvedFlag : Bool) (schema : List Column)
deriving DecidableEq, Repr

/-- Node resolvedness (`Node.Resolved`).  Modelled from the spec: a node is
resolved iff all its expressions and all its children are; a leaf reports
its own flag. -/
def Node.resolved : Node → Bool
  | Node.project ps c => ps.all Expr.resolved && c.resolved
  | Node.groupBy s g c => s.all Expr.resolved && g.all Expr.resolved && c.resolved
  | Node.leaf r _ => r

/-- The column a resolved projected expression contributes to its node's
schema.  Modelled from the spec: the generated field references carry
name, source table, type and nullability. -/
def Expr.toColumn : Expr → Column
  | Expr.getField _ ty tbl nm nb => Column.mk nm tbl ty nb
  | Expr.star t => Column.mk "*" t SqlType.null false
  | Expr.otherExpr _ _ => Column.mk "" "" SqlType.null true

/-- A node's schema (`Node.Schema`).  Modelled from the spec: a
projection-like node exposes one column per projected expression, a leaf
carries its schema; the rule only reads the schema of a resolved child. -/
def Node.schema : Node → List Column
  | Node.project ps _ => ps.map Expr.toColumn
  | Node.groupBy s _ _ => s.map Expr.toColumn
  | Node.leaf _ sch => sch

/-- `plan.TransformUp`.  Modelled from the spec: transform every child
first, then apply the visitor to the rebuilt node; a visitor error aborts
the transformation and propagates unchanged. -/
def transformUp (f : Node → Except SqlError Node) : Node → Except SqlError Node
  | Node.project ps c =>
    match transformUp f c with
    | Except.error e => Except.error e
    | Except.ok c2 => f (Node.project ps c2)
  | Node.groupBy s g c =>
    match transformUp f c with
    | Except.error e => Except.error e
    | Except.ok c2 => f (Node.groupBy s g c2)
  | Node.leaf r sch => f (Node.leaf r sch)

/-- Modelled from the spec: `getTableAliases` (its code is not under src/)
collects the lower-cased alias map from the tree and scope; per spec
section 4.3 collection itself does not fail, and `expandStarsForExpressions`
never reads its result, so the embedding threads an empty map. -/
def getTableAliases (_ : Node) : TableAliases := []

/-- The visitor function of `expandStars` (expand_stars.go lines 21-52):
skip any node that is already resolved, skip a projection-like node whose
child is not yet resolved, and otherwise rebuild the node with its
expression list expanded against the child's schema. -/
def expandStarsStep (aliases : TableAliases) (n : Node) : Except SqlError Node :=
  if n.resolved then Except.ok n
  else
    match n with
    | Node.project ps c =>
      if !c.resolved then Except.ok (Node.project ps c)
      else
        match expandStarsForExpressions ps c.schema aliases with
        | Except.error e => Except.error e
        | Except.ok es => Except.ok (Node.project es c)
    | Node.groupBy s g c =>
      if !c.resolved then Except.ok (Node.groupBy s g c)
      else
        match expandStarsForExpressions s c.schema aliases with
        | Except.error e => Except.error e
        | Except.ok es => Except.ok (Node.groupBy es g c)
    | n2 => Except.ok n2

/-- `expandStars` (expand_stars.go lines 12-53): build the alias map from
the tree, then transform it bottom-up with the star-expanding visitor. -/
def expandStars (n : Node) : Except SqlError Node :=
  transformUp (expandStarsStep (getTableAliases n)) n


/-! ## System and user variable expressions (expression/variables, src/unnamed/part_000) -/

/-- `sql.SystemVariableScope`: Session, Global, and the remaining scope
tags, on which `SystemVar.Eval` fails. -/
inductive SystemVariableScope where
  | session
  | global
  | otherScope (tag : Nat)
deriving DecidableEq, Repr

/-- Modelled from the spec: `sql.CollationID` (its tables are not under
src/) is a collation identifier from which a collation name and its
character-set name can be read; the embedding carries the two names. -/
structure CollationID where
  collationName : String
  charsetName : String
deriving DecidableEq, Repr

/-- The definition of a system variable in the global registry
(`sql.SystemVariable`): the embedding keeps the declared type, the one
field `SystemVar.Type` reads. -/
structure SystemVarDefinition where
  typ : SqlType
deriving DecidableEq, Repr

/-- The per-query context (`sql.Context`) as the variable expressions see
it: the session variable store, the session's user variables, and the
process-wide global system-variable registry (`sql.SystemVariables`),
each mapping a name to its entry. -/
structure Context where
  sessionVars : List (String × Value)
  userVars : List (String × SqlType × Value)
  globalVars : List (String × SystemVarDefinition × Value)
deriving DecidableEq, Repr

/-- `ctx.GetSessionVariable`.  Modelled from the spec: case-insensitive
lookup in the session store, failing with "unknown system variable" when
the name is absent. -/
def Context.getSessionVariable (ctx : Context) (name : String) : Except SqlError Value :=
  match ctx.sessionVars.find? (fun p => lowerString p.1 == lowerString name) with
  | some p => Except.ok p.2
  | none => Except.error (SqlError.unknownSystemVariable name)

/-- `sql.SystemVariables.GetGlobal`.  Modelled from the spec:
case-insensitive lookup returning the variable's definition and current
value, with `none` standing for `found = false`. -/
def Context.getGlobal (ctx : Context) (name : String) :
    Option (SystemVarDefinition × Value) :=
  (ctx.globalVars.find? (fun p => lowerString p.1 == lowerString name)).map
    (fun p => p.2)

/-- `ctx.GetUserVariable`.  Modelled from the spec: a user variable read
before any write yields the `Null` type and a null value rather than an
error. -/
def Context.getUserVariable (ctx : Context) (name : String) : SqlType × Value :=
  match ctx.userVars.find? (fun p => p.1 == name) with
  | some p => p.2
  | none => (SqlType.null, Value.null)

/-- `expression.SystemVar` (part_000 lines 27-32): a system-variable
reference with its name, collation of the current database, scope and the
scope string as originally written. -/
structure SystemVar where
  name : String
  collation : CollationID
  scope : SystemVariableScope
  specifiedScope : String
deriving DecidableEq, Repr

/-- `SystemVar.Eval` (part_000 lines 50-80): session scope answers the two
database-collation-derived names directly from the expression's collation
and reads every other name through the session store; global scope reads
the global registry, failing with "unknown system variable" when the name
is not found; any other scope is an error. -/
def SystemVar.Eval (v : SystemVar) (ctx : Context) : Except SqlError Value :=
  match v.scope with
  | SystemVariableScope.session =>
    if lowerString v.name == "character_set_database" then
      Except.ok (Value.str v.collation.charsetName)
    else if lowerString v.name == "collation_database" then
      Except.ok (Value.str v.collation.collationName)
    else
      ctx.getSessionVariable v.name
  | SystemVariableScope.global =>
    match ctx.getGlobal v.name with
    | some p => Except.ok p.2
    | none => Except.error (SqlError.unknownSystemVariable v.name)
  | SystemVariableScope.otherScope tag => Except.error (SqlError.otherError tag)

/-- `SystemVar.Type` (part_000 lines 83-88): the declared type from the
global registry, or the `Null` type when the name is unknown there. -/
def SystemVar.varType (v : SystemVar) (ctx : Context) : SqlType :=
  match ctx.getGlobal v.name with
  | some p => p.1.typ
  | none => SqlType.null

/-- `SystemVar.Resolved` (part_000 line 104): unconditionally true. -/
def SystemVar.Resolved (_ : SystemVar) : Bool := true

/-- `expression.UserVar` (part_000 lines 126-129). -/
structure UserVar where
  name : String
  exprType : SqlType
deriving DecidableEq, Repr

/-- `UserVar.Eval` (part_000 lines 151-158): read the user variable's
value from the session. -/
def UserVar.Eval (v : UserVar) (ctx : Context) : Except SqlError Value :=
  Except.ok (ctx.getUserVariable v.name).2

/-- `UserVar.Resolved` (part_000 line 175): unconditionally true. -/
def UserVar.Resolved (_ : UserVar) : Bool := true


/-! ## View registry (sql/view registry; implementation modelled from the spec,
only its tests are under src/) -/

/-- `sql.View` (`NewView(name, definition, textDefinition)`): the embedding
keeps the name and textual definition. -/
structure View where
  name : String
  textDefinition : String
deriving DecidableEq, Repr

/-- The registry's composite key `(database name, view name)`. -/
structure ViewKey where
  dbName : String
  viewName : String
deriving DecidableEq, Repr

/-- Modelled from the spec: the view registry is a catalog mapping
`(database, view name)` to the stored view, with unique keys. -/
structure ViewRegistry where
  views : List (ViewKey × View)
deriving DecidableEq, Repr

/-- `NewViewRegistry()`: the empty registry. -/
def NewViewRegistry : ViewRegistry := ViewRegistry.mk []

/-- `registry.Exists(db, name)`. -/
def ViewRegistry.keyExists (r : ViewRegistry) (db name : String) : Bool :=
  r.views.any (fun p => p.1 == ViewKey.mk db name)

/-- `registry.Register(db, view)`.  Modelled from the spec: fails with
"view already exists" when the `(db, name)` key is already present,
otherwise inserts. -/
def ViewRegistry.register (r : ViewRegistry) (db : String) (v : View) :
    Except SqlError ViewRegistry :=
  if r.keyExists db v.name then Except.error (SqlError.existingView v.name)
  else Except.ok (ViewRegistry.mk ((ViewKey.mk db v.name, v) :: r.views))

/-- `registry.View(db, name)`.  Modelled from the spec: fails with
"view does not exist" when the key is absent. -/
def ViewRegistry.view (r : ViewRegistry) (db name : String) : Except SqlError View :=
  match r.views.find? (fun p => p.1 == ViewKey.mk db name) with
  | some p => Except.ok p.2
  | none => Except.error (SqlError.nonExistingView name)

/-- `registry.Delete(db, name)`.  Modelled from the spec: fails with
"view does not exist" when the key is absent, otherwise removes it. -/
def ViewRegistry.delete (r : ViewRegistry) (db name : String) :
    Except SqlError ViewRegistry :=
  if r.keyExists db name then
    Except.ok (ViewRegistry.mk (r.views.filter (fun p => !(p.1 == ViewKey.mk db name))))
  else Except.error (SqlError.nonExistingView name)

/-- Removal of every entry whose key is in the list. -/
def ViewRegistry.removeAll (r : ViewRegistry) (keys : List ViewKey) : ViewRegistry :=
  ViewRegistry.mk (r.views.filter (fun p => !(keys.contains p.1)))

/-- `registry.DeleteList(keys, errIfNotExists)`.  Modelled from the spec:
with `errIfNotExists` true the whole batch fails atomically on the first
missing key and nothing is deleted; with it false missing keys are
silently skipped and every existing key in the batch is removed. -/
def ViewRegistry.deleteList (r : ViewRegistry) (keys : List ViewKey)
    (errIfNotExists : Bool) : Except SqlError ViewRegistry :=
  if errIfNotExists then
    match keys.find? (fun k => !(r.keyExists k.dbName k.viewName)) with
    | some k => Except.error (SqlError.nonExistingView k.viewName)
    | none => Except.ok (r.removeAll keys)
  else Except.ok (r.removeAll keys)

/-- `registry.AllViews()`. -/
def ViewRegistry.allViews (r : ViewRegistry) : List View :=
  r.views.map (fun p => p.2)


/-! ## SET statement execution (sql/plan/set.go; implementation modelled from
the spec, only its test is under src/) -/

/-- The session variable store as the SET tests see it: a map from variable
name to its declared type and value (`BaseSession`'s config). -/
structure Session where
  config : List (String × SqlType × Value)
deriving DecidableEq, Repr

/-- `ctx.Get(name)`.  Modelled from the spec: a typed read with the `Null`
type and a null value for a name never written. -/
def Session.get (s : Session) (name : String) : SqlType × Value :=
  match s.config.find? (fun p => p.1 == name) with
  | some p => p.2
  | none => (SqlType.null, Value.null)

/-- `ctx.Set(name, typ, value)`: overwrite the variable's entry. -/
def Session.set (s : Session) (name : String) (t : SqlType) (v : Value) : Session :=
  Session.mk ((name, t, v) :: s.config.filter (fun p => !(p.1 == name)))

/-- The right-hand side of one SET assignment: a typed literal
(`expression.NewLiteral`) or DEFAULT (`expression.NewDefaultColumn`). -/
inductive SetValue where
  | literal (typ : SqlType) (v : Value)
  | defaultColumn
deriving DecidableEq, Repr

/-- One assignment of a `plan.Set` node (`expression.NewSetField`): the
variable name as written on the left, and the value expression. -/
structure SetField where
  left : String
  right : SetValue
deriving DecidableEq, Repr

/-- Strip the `@@` system-variable marker from a SET target name, so that
`SET @@baz = 1` stores under `baz`. -/
def trimVarName (s : String) : String :=
  match s.data with
  | '@' :: '@' :: rest => String.mk rest
  | _ => s

/-- `Set.RowIter`.  Modelled from the spec: assign each field in order;
a literal stores its declared type and value under the trimmed name, and
DEFAULT re-reads the compiled-in default table (`DefaultSessionConfig`,
passed here as `defaults`) and stores exactly the `(Type, Value)` pair
found there. -/
def setExec (defaults : List (String × SqlType × Value)) (fields : List SetField)
    (s : Session) : Session :=
  fields.foldl
    (fun sess f =>
      let name := trimVarName f.left
      match f.right with
      | SetValue.literal t v => sess.set name t v
      | SetValue.defaultColumn =>
        match defaults.find? (fun p => p.1 == name) with
        | some p => sess.set name p.2.1 p.2.2
        | none => sess)
    s

/-! ## Replication-control plan nodes (sql/plan/replication_commands.go) -/

/-- `binlogreplication.ReplicationOption`. -/
structure ReplicationOption where
  name : String
  value : String
deriving DecidableEq, Repr

/-- `binlogreplication.BinlogReplicaController`: the externally supplied
controller; each operation yields the error it returned, `none` standing
for success. -/
structure BinlogReplicaController where
  setReplicationSourceOptions : List ReplicationOption → Option SqlError
  setReplicationFilterOptions : List ReplicationOption → Option SqlError
  startReplica : Option SqlError
  stopReplica : Option SqlError
  resetReplica : Bool → Option SqlError

/-- The result the `RowIter` of a replication node hands back: the empty
row sequence on success (`sql.RowsToRowIter()`), or the controller's
error. -/
def iterResult : Option SqlError → Except SqlError (List (List Value))
  | some e => Except.error e
  | none => Except.ok []

/-- `plan.ChangeReplicationSource` (replication_commands.go lines 37-40). -/
structure ChangeReplicationSource where
  replicaController : Option BinlogReplicaController
  options : List ReplicationOption

/-- `NewChangeReplicationSource`: no controller bound yet. -/
def NewChangeReplicationSource (opts : List ReplicationOption) : ChangeReplicationSource :=
  ChangeReplicationSource.mk none opts

/-- `ChangeReplicationSource.WithBinlogReplicaController`. -/
def ChangeReplicationSource.withController (c : ChangeReplicationSource)
    (ctrl : BinlogReplicaController) : ChangeReplicationSource :=
  ChangeReplicationSource.mk (some ctrl) c.options

/-- `ChangeReplicationSource.RowIter` (lines 82-89). -/
def ChangeReplicationSource.rowIter (c : ChangeReplicationSource) :
    Except SqlError (List (List Value)) :=
  match c.replicaController with
  | none => Except.error SqlError.noReplicationController
  | some ctrl => iterResult (ctrl.setReplicationSourceOptions c.options)

/-- `plan.ChangeReplicationFilter` (lines 107-110). -/
structure ChangeReplicationFilter where
  replicaController : Option BinlogReplicaController
  options : List ReplicationOption

/-- `NewChangeReplicationFilter`. -/
def NewChangeReplicationFilter (opts : List ReplicationOption) : ChangeReplicationFilter :=
  ChangeReplicationFilter.mk none opts

/-- `ChangeReplicationFilter.WithBinlogReplicaController`. -/
def ChangeReplicationFilter.withController (c : ChangeReplicationFilter)
    (ctrl : BinlogReplicaController) : ChangeReplicationFilter :=
  ChangeReplicationFilter.mk (some ctrl) c.options

/-- `ChangeReplicationFilter.RowIter` (lines 155-162). -/
def ChangeReplicationFilter.rowIter (c : ChangeReplicationFilter) :
    Except SqlError (List (List Value)) :=
  match c.replicaController with
  | none => Except.error SqlError.noReplicationController
  | some ctrl => iterResult (ctrl.setReplicationFilterOptions c.options)

/-- `plan.StartReplica` (lines 180-182). -/
structure StartReplica where
  replicaController : Option BinlogReplicaController

/-- `NewStartReplica`. -/
def NewStartReplica : StartReplica := StartReplica.mk none

/-- `StartReplica.WithBinlogReplicaController`. -/
def StartReplica.withController (_ : StartReplica)
    (ctrl : BinlogReplicaController) : StartReplica :=
  StartReplica.mk (some ctrl)

/-- `StartReplica.RowIter` (lines 214-221). -/
def StartReplica.rowIter (s : StartReplica) : Except SqlError (List (List Value)) :=
  match s.replicaController with
  | none => Except.error SqlError.noReplicationController
  | some ctrl => iterResult ctrl.startReplica

/-- `plan.StopReplica` (lines 239-241). -/
structure StopReplica where
  replicaController : Option BinlogReplicaController

/-- `NewStopReplica`. -/
def NewStopReplica : StopReplica := StopReplica.mk none

/-- `StopReplica.WithBinlogReplicaController`. -/
def StopReplica.withController (_ : StopReplica)
    (ctrl : BinlogReplicaController) : StopReplica :=
  StopReplica.mk (some ctrl)

/-- `StopReplica.RowIter` (lines 273-280). -/
def StopReplica.rowIter (s : StopReplica) : Except SqlError (List (List Value)) :=
  match s.replicaController with
  | none => Except.error SqlError.noReplicationController
  | some ctrl => iterResult ctrl.stopReplica

/-- `plan.ResetReplica` (lines 298-301). -/
structure ResetReplica where
  replicaController : Option BinlogReplicaController
  all : Bool

/-- `NewResetReplica`. -/
def NewResetReplica (all : Bool) : ResetReplica := ResetReplica.mk none all

/-- `ResetReplica.WithBinlogReplicaController`. -/
def ResetReplica.withController (r : ResetReplica)
    (ctrl : BinlogReplicaController) : ResetReplica :=
  ResetReplica.mk (some ctrl) r.all

/-- `ResetReplica.RowIter` (lines 340-347). -/
def ResetReplica.rowIter (r : ResetReplica) : Except SqlError (List (List Value)) :=
  match r.replicaController with
  | none => Except.error SqlError.noReplicationController
  | some ctrl => iterResult (ctrl.resetReplica r.all)

end GMS

namespace GMS

theorem starMatchesFrom_unqualified (schema : List Column) :
    ∀ i, starMatchesFrom "" i schema =
      (schema.enumFrom i).map
        (fun p => Expr.getField p.1 p.2.typ p.2.source p.2.name p.2.nullable) := by
  induction schema with
  | nil => intro i; rfl
  | cons c rest ih =>
    intro i
    simp [starMatchesFrom, List.enumFrom, ih, NewGetFieldWithTable]

theorem expandStarsForExpressions_ok_eq (schema : List Column) (aliases : TableAliases) :
    ∀ exprs out, expandStarsForExpressions exprs schema aliases = Except.ok out →
      out = exprs.flatMap (expandOneExpr schema) := by
  intro exprs
  induction exprs with
  | nil =>
    intro out h
    simp [expandStarsForExpressions] at h
    simp [h]
  | cons e rest ih =>
    intro out h
    cases e with
    | star t =>
      simp only [expandStarsForExpressions] at h
      split at h
      · exact absurd h (by simp)
      · cases hrec : expandStarsForExpressions rest schema aliases with
        | error e2 => rw [hrec] at h; exact absurd h (by simp)
        | ok tail =>
          rw [hrec] at h
          simp at h
          subst h
          simp [List.flatMap, expandOneExpr, ih tail hrec]
    | getField idx ty tbl nm nb =>
      simp only [expandStarsForExpressions] at h
      cases hrec : expandStarsForExpressions rest schema aliases with
      | error e2 => rw [hrec] at h; exact absurd h (by simp)
      | ok tail =>
        rw [hrec] at h
        simp at h
        subst h
        simp [List.flatMap, expandOneExpr, ih tail hrec]
    | otherExpr tag r =>
      simp only [expandStarsForExpressions] at h
      cases hrec : expandStarsForExpressions rest schema aliases with
      | error e2 => rw [hrec] at h; exact absurd h (by simp)
      | ok tail =>
        rw [hrec] at h
        simp at h
        subst h
        simp [List.flatMap, expandOneExpr, ih tail hrec]


theorem starMatchesFrom_eq_nil_iff (t : String) (ht : t ≠ "") :
    ∀ (schema : List Column) (i : Nat),
      starMatchesFrom t i schema = [] ↔
        ∀ c ∈ schema, lowerString t ≠ lowerString c.source := by
  intro schema
  induction schema with
  | nil => intro i; simp [starMatchesFrom]
  | cons c rest ih =>
    intro i
    by_cases hc : lowerString t = lowerString c.source
    · simp [starMatchesFrom, hc, ht, NewGetFieldWithTable]
    · simp [starMatchesFrom, hc, ht, ih (i + 1)]

theorem starMatchesFrom_mem_index (t : String) :
    ∀ (schema : List Column) (i idx : Nat) (ty : SqlType) (src nm : String) (nb : Bool),
      Expr.getField idx ty src nm nb ∈ starMatchesFrom t i schema →
        i ≤ idx ∧ schema.get? (idx - i) = some (Column.mk nm src ty nb) ∧
          (t = "" ∨ lowerString t = lowerString src) := by
  intro schema
  induction schema with
  | nil => intro i idx ty src nm nb h; simp [starMatchesFrom] at h
  | cons c rest ih =>
    intro i idx ty src nm nb h
    simp only [starMatchesFrom] at h
    split at h
    case isTrue hcond =>
      rcases List.mem_cons.mp h with heq | hmem
      · simp only [NewGetFieldWithTable, Expr.getField.injEq] at heq
        obtain ⟨h1, h2, h3, h4, h5⟩ := heq
        subst h1; subst h2; subst h3; subst h4; subst h5
        refine ⟨Nat.le_refl _, by simp, ?_⟩
        rcases Bool.or_eq_true_iff.mp hcond with hs | hs
        · exact Or.inl (by simpa using hs)
        · exact Or.inr (by simpa using hs)
      · obtain ⟨hle, hget, hmatch⟩ := ih (i + 1) idx ty src nm nb hmem
        refine ⟨Nat.le_trans (Nat.le_succ _) hle, ?_, hmatch⟩
        have hdi : idx - i = (idx - (i + 1)) + 1 := by omega
        rw [hdi]
        simpa using hget
    case isFalse hcond =>
      obtain ⟨hle, hget, hmatch⟩ := ih (i + 1) idx ty src nm nb h
      refine ⟨Nat.le_trans (Nat.le_succ _) hle, ?_, hmatch⟩
      have hdi : idx - i = (idx - (i + 1)) + 1 := by omega
      rw [hdi]
      simpa using hget

theorem expandStarsForExpressions_error_iff (schema : List Column) (aliases : TableAliases) :
    ∀ exprs : List Expr,
      (∃ e, expandStarsForExpressions exprs schema aliases = Except.error e) ↔
        ∃ t, Expr.star t ∈ exprs ∧ t ≠ "" ∧ starMatches t schema = [] := by
  intro exprs
  induction exprs with
  | nil => simp [expandStarsForExpressions]
  | cons e rest ih =>
    cases e with
    | star t =>
      by_cases hemp : starMatches t schema = []
      · by_cases ht : t = ""
        · subst ht
          simp only [expandStarsForExpressions, hemp]
          cases hrec : expandStarsForExpressions rest schema aliases with
          | error e3 =>
            simp only [List.isEmpty_nil, beq_self_eq_true, Bool.not_true, Bool.and_false,
              Bool.false_eq_true, if_false, hrec]
            have hr := ih.mp ⟨e3, hrec⟩
            constructor
            · intro _
              obtain ⟨u, h1, h2, h3⟩ := hr
              exact ⟨u, List.mem_cons_of_mem _ h1, h2, h3⟩
            · intro _
              exact ⟨e3, by simp⟩
          | ok tail =>
            simp only [List.isEmpty_nil, beq_self_eq_true, Bool.not_true, Bool.and_false,
              Bool.false_eq_true, if_false, hrec]
            constructor
            · intro ⟨e2, he⟩
              exact absurd he (by simp)
            · intro ⟨u, h1, h2, h3⟩
              rcases List.mem_cons.mp h1 with heq | hmem
              · injection heq with hteq
                exact absurd hteq h2
              · obtain ⟨e3, he3⟩ := ih.mpr ⟨u, hmem, h2, h3⟩
                rw [he3] at hrec
                exact absurd hrec (by simp)
        · have hcond : ((starMatches t schema).isEmpty && !(t == "")) = true := by
            simp [List.isEmpty_iff, hemp, ht]
          constructor
          · intro _
            exact ⟨t, List.mem_cons_self _ _, ht, hemp⟩
          · intro _
            exact ⟨SqlError.tableNotFound t, by simp [expandStarsForExpressions, hcond]⟩
      · have hcond : ((starMatches t schema).isEmpty && !(t == "")) = false := by
          simp [List.isEmpty_iff, hemp]
        simp only [expandStarsForExpressions, hcond, Bool.false_eq_true, if_false]
        cases hrec : expandStarsForExpressions rest schema aliases with
        | error e3 =>
          simp only [hrec]
          have hr := ih.mp ⟨e3, hrec⟩
          constructor
          · intro _
            obtain ⟨u, h1, h2, h3⟩ := hr
            exact ⟨u, List.mem_cons_of_mem _ h1, h2, h3⟩
          · intro _
            exact ⟨e3, by simp⟩
        | ok tail =>
          simp only [hrec]
          constructor
          · intro ⟨e2, he⟩
            exact absurd he (by simp)
          · intro ⟨u, h1, h2, h3⟩
            rcases List.mem_cons.mp h1 with heq | hmem
            · injection heq with hteq
              subst hteq
              exact absurd h3 hemp
            · obtain ⟨e3, he3⟩ := ih.mpr ⟨u, hmem, h2, h3⟩
              rw [he3] at hrec
              exact absurd hrec (by simp)
    | getField idx ty tbl nm nb =>
      simp only [expandStarsForExpressions]
      cases hrec : expandStarsForExpressions rest schema aliases with
      | error e3 =>
        simp only [hrec]
        have hr := ih.mp ⟨e3, hrec⟩
        constructor
        · intro _
          obtain ⟨u, h1, h2, h3⟩ := hr
          exact ⟨u, List.mem_cons_of_mem _ h1, h2, h3⟩
        · intro _
          exact ⟨e3, by simp⟩
      | ok tail =>
        simp only [hrec]
        constructor
        · intro ⟨e2, he⟩
          exact absurd he (by simp)
        · intro ⟨u, h1, h2, h3⟩
          rcases List.mem_cons.mp h1 with heq | hmem
          · exact absurd heq (by simp)
          · obtain ⟨e3, he3⟩ := ih.mpr ⟨u, hmem, h2, h3⟩
            rw [he3] at hrec
            exact absurd hrec (by simp)
    | otherExpr tag r =>
      simp only [expandStarsForExpressions]
      cases hrec : expandStarsForExpressions rest schema aliases with
      | error e3 =>
        simp only [hrec]
        have hr := ih.mp ⟨e3, hrec⟩
        constructor
        · intro _
          obtain ⟨u, h1, h2, h3⟩ := hr
          exact ⟨u, List.mem_cons_of_mem _ h1, h2, h3⟩
        · intro _
          exact ⟨e3, by simp⟩
      | ok tail =>
        simp only [hrec]
        constructor
        · intro ⟨e2, he⟩
          exact absurd he (by simp)
        · intro ⟨u, h1, h2, h3⟩
          rcases List.mem_cons.mp h1 with heq | hmem
          · exact absurd heq (by simp)
          · obtain ⟨e3, he3⟩ := ih.mpr ⟨u, hmem, h2, h3⟩
            rw [he3] at hrec
            exact absurd hrec (by simp)


theorem starMatchesFrom_mem_shape (t : String) :
    ∀ (schema : List Column) (i : Nat) (e : Expr), e ∈ starMatchesFrom t i schema →
      ∃ idx ty src nm nb, e = Expr.getField idx ty src nm nb := by
  intro schema
  induction schema with
  | nil => intro i e h; simp [starMatchesFrom] at h
  | cons c rest ih =>
    intro i e h
    simp only [starMatchesFrom] at h
    split at h
    · rcases List.mem_cons.mp h with heq | hmem
      · exact ⟨i, c.typ, c.source, c.name, c.nullable, heq⟩
      · exact ih (i + 1) e hmem
    · exact ih (i + 1) e h

theorem expandStarsForExpressions_single_star (t : String) (schema : List Column)
    (aliases : TableAliases) :
    expandStarsForExpressions [Expr.star t] schema aliases =
      Except.error (SqlError.tableNotFound t) ↔
      (t ≠ "" ∧ ∀ c ∈ schema, lowerString t ≠ lowerString c.source) := by
  constructor
  · intro h
    obtain ⟨u, hu1, hu2, hu3⟩ :=
      (expandStarsForExpressions_error_iff schema aliases [Expr.star t]).mp ⟨_, h⟩
    have hut : u = t := by
      rcases List.mem_cons.mp hu1 with heq | hmem
      · injection heq
      · simp at hmem
    subst hut
    exact ⟨hu2, (starMatchesFrom_eq_nil_iff u hu2 schema 0).mp hu3⟩
  · intro ⟨ht, hcol⟩
    have hemp : starMatches t schema = [] :=
      (starMatchesFrom_eq_nil_iff t ht schema 0).mpr hcol
    have hcond : ((starMatches t schema).isEmpty && !(t == "")) = true := by
      simp [List.isEmpty_iff, hemp, ht]
    simp [expandStarsForExpressions, hcond]

/-- C1: star expansion of a projection list, when it succeeds, replaces each
wildcard by one qualified field reference per matching column of the child
schema — an unqualified wildcard expands to every column in schema order,
a qualified one only to the columns whose source table matches the
qualifier case-insensitively — copying each column's type, source table,
name and nullability verbatim into the generated reference, and passes
every non-wildcard expression through unchanged in its position. -/
theorem expandStars_projection_spec (exprs : List Expr) (schema : List Column)
    (aliases : TableAliases) (out : List Expr)
    (h : expandStarsForExpressions exprs schema aliases = Except.ok out) :
    out = exprs.flatMap (expandOneExpr schema)
    ∧ starMatches "" schema = schema.enum.map
        (fun p => Expr.getField p.1 p.2.typ p.2.source p.2.name p.2.nullable)
    ∧ (∀ t e2, e2 ∈ starMatches t schema →
        ∃ i c, schema.get? i = some c
          ∧ e2 = Expr.getField i c.typ c.source c.name c.nullable
          ∧ (t = "" ∨ lowerString t = lowerString c.source))
    ∧ (∀ e2, (∀ t, e2 ≠ Expr.star t) → expandOneExpr schema e2 = [e2]) := by
  refine ⟨expandStarsForExpressions_ok_eq schema aliases exprs out h, ?_, ?_, ?_⟩
  · exact starMatchesFrom_unqualified schema 0
  · intro t e2 hmem
    obtain ⟨idx, ty, src, nm, nb, hshape⟩ :=
      starMatchesFrom_mem_shape t schema 0 e2 hmem
    subst hshape
    obtain ⟨-, hget, hmatch⟩ := starMatchesFrom_mem_index t schema 0 idx ty src nm nb hmem
    refine ⟨idx, Column.mk nm src ty nb, by simpa using hget, rfl, ?_⟩
    exact hmatch
  · intro e2 hne
    cases e2 with
    | star t => exact absurd rfl (hne t)
    | getField idx ty tbl nm nb => rfl
    | otherExpr tag r => rfl

/-- Concrete run of C1's theorem: projecting an unqualified star followed by
a pass-through expression over a two-column schema, and checking the
expanded list. -/
theorem expandStars_projection_spec_witness :
    ([Expr.getField 0 SqlType.int64 "t" "a" false,
      Expr.getField 1 SqlType.longText "t" "b" true,
      Expr.otherExpr 7 true] : List Expr) =
      ([Expr.star "", Expr.otherExpr 7 true] : List Expr).flatMap
        (expandOneExpr [Column.mk "a" "t" SqlType.int64 false,
          Column.mk "b" "t" SqlType.longText true])
    ∧ starMatches "" [Column.mk "a" "t" SqlType.int64 false,
        Column.mk "b" "t" SqlType.longText true] =
        ([Column.mk "a" "t" SqlType.int64 false,
          Column.mk "b" "t" SqlType.longText true] : List Column).enum.map
          (fun p => Expr.getField p.1 p.2.typ p.2.source p.2.name p.2.nullable)
    ∧ (∀ t e2, e2 ∈ starMatches t [Column.mk "a" "t" SqlType.int64 false,
          Column.mk "b" "t" SqlType.longText true] →
        ∃ i c, ([Column.mk "a" "t" SqlType.int64 false,
            Column.mk "b" "t" SqlType.longText true] : List Column).get? i = some c
          ∧ e2 = Expr.getField i c.typ c.source c.name c.nullable
          ∧ (t = "" ∨ lowerString t = lowerString c.source))
    ∧ (∀ e2, (∀ t, e2 ≠ Expr.star t) →
        expandOneExpr [Column.mk "a" "t" SqlType.int64 false,
          Column.mk "b" "t" SqlType.longText true] e2 = [e2]) :=
  expandStars_projection_spec [Expr.star "", Expr.otherExpr 7 true]
    [Column.mk "a" "t" SqlType.int64 false, Column.mk "b" "t" SqlType.longText true]
    [] _ rfl

/-- C2: star expansion fails with a "table not found" error naming the
wildcard's qualifier exactly when that qualifier is non-empty and matches
no column of the child schema (case-insensitively); an unqualified wildcard
over a zero-column child schema expands to the empty list without error,
and more generally the whole projection list fails exactly when it contains
such an unmatched qualified wildcard. -/
theorem expandStars_table_not_found :
    (∀ (t : String) (schema : List Column) (aliases : TableAliases),
      expandStarsForExpressions [Expr.star t] schema aliases =
          Except.error (SqlError.tableNotFound t) ↔
        (t ≠ "" ∧ ∀ c ∈ schema, lowerString t ≠ lowerString c.source))
    ∧ (∀ aliases : TableAliases,
        expandStarsForExpressions [Expr.star ""] [] aliases = Except.ok [])
    ∧ (∀ (exprs : List Expr) (schema : List Column) (aliases : TableAliases),
        (∃ e, expandStarsForExpressions exprs schema aliases = Except.error e) ↔
          ∃ t, Expr.star t ∈ exprs ∧ t ≠ "" ∧
            ∀ c ∈ schema, lowerString t ≠ lowerString c.source) := by
  refine ⟨expandStarsForExpressions_single_star, fun aliases => rfl, ?_⟩
  intro exprs schema aliases
  rw [expandStarsForExpressions_error_iff schema aliases exprs]
  constructor
  · intro ⟨t, h1, h2, h3⟩
    exact ⟨t, h1, h2, (starMatchesFrom_eq_nil_iff t h2 schema 0).mp h3⟩
  · intro ⟨t, h1, h2, h3⟩
    exact ⟨t, h1, h2, (starMatchesFrom_eq_nil_iff t h2 schema 0).mpr h3⟩

/-- C9: the index stored in each field reference generated by star
expansion is the column's ordinal position in the full child schema — even
when a table qualifier filters other columns out, indices are not
renumbered to be consecutive. -/
theorem starExpansion_index_is_schema_position (t : String) (schema : List Column)
    (idx : Nat) (ty : SqlType) (src nm : String) (nb : Bool)
    (h : Expr.getField idx ty src nm nb ∈ starMatches t schema) :
    schema.get? idx = some (Column.mk nm src ty nb)
    ∧ (t = "" ∨ lowerString t = lowerString src) := by
  obtain ⟨-, hget, hmatch⟩ := starMatchesFrom_mem_index t schema 0 idx ty src nm nb h
  exact ⟨by simpa using hget, hmatch⟩

/-- Concrete run of C9's theorem: `t.*` over the schema `[u.a, t.b]`
generates a reference with index 1, the position of `t.b` in the full
schema. -/
theorem starExpansion_index_witness :
    ([Column.mk "a" "u" SqlType.int64 false,
      Column.mk "b" "t" SqlType.longText true] : List Column).get? 1 =
        some (Column.mk "b" "t" SqlType.longText true)
    ∧ ("t" = "" ∨ lowerString "t" = lowerString "t") :=
  starExpansion_index_is_schema_position "t"
    [Column.mk "a" "u" SqlType.int64 false, Column.mk "b" "t" SqlType.longText true]
    1 SqlType.longText "t" "b" true (by decide)


theorem transformUp_expandStarsStep_resolved (aliases : TableAliases) :
    ∀ n : Node, n.resolved = true →
      transformUp (expandStarsStep aliases) n = Except.ok n := by
  intro n
  induction n with
  | project ps c ih =>
    intro h
    have hc : c.resolved = true := by
      simp [Node.resolved, Bool.and_eq_true] at h
      tauto
    simp only [transformUp, ih hc, expandStarsStep, h, if_true]
  | groupBy s g c ih =>
    intro h
    have hc : c.resolved = true := by
      simp [Node.resolved, Bool.and_eq_true] at h
      tauto
    simp only [transformUp, ih hc, expandStarsStep, h, if_true]
  | leaf r sch =>
    intro h
    simp only [transformUp, expandStarsStep, h, if_true]

/-- C4: the star-expansion rule is idempotent: its visitor returns any
already-resolved node unchanged with no error, returns a Project or
GroupBy whose child is not yet resolved unchanged with no error, and the
whole rule maps an already-fully-resolved tree to itself, so running it
twice on such a tree equals running it once. -/
theorem expandStars_idempotent :
    (∀ (aliases : TableAliases) (n : Node), n.resolved = true →
      expandStarsStep aliases n = Except.ok n)
    ∧ (∀ (aliases : TableAliases) (ps : List Expr) (c : Node), c.resolved = false →
        expandStarsStep aliases (Node.project ps c) = Except.ok (Node.project ps c))
    ∧ (∀ (aliases : TableAliases) (s g : List Expr) (c : Node), c.resolved = false →
        expandStarsStep aliases (Node.groupBy s g c) = Except.ok (Node.groupBy s g c))
    ∧ (∀ n : Node, n.resolved = true → expandStars n = Except.ok n)
    ∧ (∀ n : Node, n.resolved = true →
        Except.bind (expandStars n) expandStars = expandStars n) := by
  have hstep : ∀ (aliases : TableAliases) (n : Node), n.resolved = true →
      expandStarsStep aliases n = Except.ok n := by
    intro aliases n h
    simp [expandStarsStep, h]
  have hwhole : ∀ n : Node, n.resolved = true → expandStars n = Except.ok n := by
    intro n h
    exact transformUp_expandStarsStep_resolved (getTableAliases n) n h
  refine ⟨hstep, ?_, ?_, hwhole, ?_⟩
  · intro aliases ps c h
    simp [expandStarsStep, Node.resolved, h]
  · intro aliases s g c h
    simp [expandStarsStep, Node.resolved, h]
  · intro n h
    rw [hwhole n h]
    show expandStars n = Except.ok n
    exact hwhole n h

/-- Sanity run: expanding an unqualified star inside an unresolved Project
over a resolved one-column leaf rewrites the projection list. -/
theorem expandStars_sanity_run :
    expandStars (Node.project [Expr.star ""]
        (Node.leaf true [Column.mk "a" "t" SqlType.int64 false])) =
      Except.ok (Node.project [Expr.getField 0 SqlType.int64 "t" "a" false]
        (Node.leaf true [Column.mk "a" "t" SqlType.int64 false])) := rfl

/-- C3: for every session-scoped SystemVar named `character_set_database`
or `collation_database` (case-insensitively), Eval never consults the
session variable store — its result is the character-set name
(respectively collation name) of the collation of the current database
carried by the expression, identical across any two contexts — while every
other session-scoped name is read through the session variable store. -/
theorem systemVar_database_collation_special :
    (∀ (v : SystemVar) (ctx : Context), v.scope = SystemVariableScope.session →
      lowerString v.name = "character_set_database" →
      v.Eval ctx = Except.ok (Value.str v.collation.charsetName))
    ∧ (∀ (v : SystemVar) (ctx : Context), v.scope = SystemVariableScope.session →
        lowerString v.name = "collation_database" →
        v.Eval ctx = Except.ok (Value.str v.collation.collationName))
    ∧ (∀ (v : SystemVar) (ctx1 ctx2 : Context), v.scope = SystemVariableScope.session →
        (lowerString v.name = "character_set_database" ∨
          lowerString v.name = "collation_database") →
        v.Eval ctx1 = v.Eval ctx2)
    ∧ (∀ (v : SystemVar) (ctx : Context), v.scope = SystemVariableScope.session →
        lowerString v.name ≠ "character_set_database" →
        lowerString v.name ≠ "collation_database" →
        v.Eval ctx = ctx.getSessionVariable v.name) := by
  have hcs : ∀ (v : SystemVar) (ctx : Context), v.scope = SystemVariableScope.session →
      lowerString v.name = "character_set_database" →
      v.Eval ctx = Except.ok (Value.str v.collation.charsetName) := by
    intro v ctx hs hn
    simp [SystemVar.Eval, hs, hn]
  have hcoll : ∀ (v : SystemVar) (ctx : Context), v.scope = SystemVariableScope.session →
      lowerString v.name = "collation_database" →
      v.Eval ctx = Except.ok (Value.str v.collation.collationName) := by
    intro v ctx hs hn
    have hne : lowerString v.name ≠ "character_set_database" := by
      rw [hn]; decide
    simp [SystemVar.Eval, hs, hn, hne]
  refine ⟨hcs, hcoll, ?_, ?_⟩
  · intro v ctx1 ctx2 hs hn
    rcases hn with hn | hn
    · rw [hcs v ctx1 hs hn, hcs v ctx2 hs hn]
    · rw [hcoll v ctx1 hs hn, hcoll v ctx2 hs hn]
  · intro v ctx hs h1 h2
    simp [SystemVar.Eval, hs, h1, h2]

/-- C10: SystemVar and UserVar report Resolved() = true unconditionally;
an unknown name surfaces only through Eval's error (session store miss or
global registry miss) or, for SystemVar.Type, through a silent fallback to
the Null type — never through the resolution flag. -/
theorem var_resolved_unconditional :
    (∀ v : SystemVar, v.Resolved = true)
    ∧ (∀ v : UserVar, v.Resolved = true)
    ∧ (∀ (v : SystemVar) (ctx : Context), ctx.getGlobal v.name = none →
        v.varType ctx = SqlType.null)
    ∧ (∀ (v : SystemVar) (ctx : Context), v.scope = SystemVariableScope.global →
        ctx.getGlobal v.name = none →
        v.Eval ctx = Except.error (SqlError.unknownSystemVariable v.name))
    ∧ (∀ (v : SystemVar) (ctx : Context), v.scope = SystemVariableScope.session →
        lowerString v.name ≠ "character_set_database" →
        lowerString v.name ≠ "collation_database" →
        ctx.sessionVars = [] →
        v.Eval ctx = Except.error (SqlError.unknownSystemVariable v.name)) := by
  refine ⟨fun v => rfl, fun v => rfl, ?_, ?_, ?_⟩
  · intro v ctx h
    simp [SystemVar.varType, h]
  · intro v ctx hs h
    simp [SystemVar.Eval, hs, h]
  · intro v ctx hs h1 h2 hemp
    simp [SystemVar.Eval, hs, h1, h2, Context.getSessionVariable, hemp]

theorem removeAll_keyExists (r : ViewRegistry) (keys : List ViewKey) (db name : String) :
    (r.removeAll keys).keyExists db name = true ↔
      (r.keyExists db name = true ∧ ViewKey.mk db name ∉ keys) := by
  simp only [ViewRegistry.removeAll, ViewRegistry.keyExists, List.any_eq_true,
    List.mem_filter, Bool.not_eq_true]
  constructor
  · intro ⟨p, ⟨hmem, hnc⟩, hkey⟩
    have hk : p.1 = ViewKey.mk db name := by simpa using hkey
    refine ⟨⟨p, hmem, hkey⟩, ?_⟩
    intro hin
    rw [hk] at hnc
    simp [List.elem_iff] at hnc
    exact hnc hin
  · intro ⟨⟨p, hmem, hkey⟩, hnin⟩
    have hk : p.1 = ViewKey.mk db name := by simpa using hkey
    refine ⟨p, ⟨hmem, ?_⟩, hkey⟩
    rw [hk]
    simpa [List.elem_iff] using hnin

/-- C5: DeleteList with errIfNotExists true fails over any key list with at
least one missing key (atomically: no successor registry is produced) and
deletes the whole batch when every key exists; with errIfNotExists false it
always succeeds, and the surviving registry holds a key exactly when the
original held it and the batch did not list it. -/
theorem deleteList_atomic :
    (∀ (r : ViewRegistry) (keys : List ViewKey),
      (∃ k ∈ keys, r.keyExists k.dbName k.viewName = false) →
        ∃ e, r.deleteList keys true = Except.error e)
    ∧ (∀ (r : ViewRegistry) (keys : List ViewKey),
        (∀ k ∈ keys, r.keyExists k.dbName k.viewName = true) →
          r.deleteList keys true = Except.ok (r.removeAll keys))
    ∧ (∀ (r : ViewRegistry) (keys : List ViewKey),
        r.deleteList keys false = Except.ok (r.removeAll keys))
    ∧ (∀ (r : ViewRegistry) (keys : List ViewKey) (db name : String),
        (r.removeAll keys).keyExists db name = true ↔
          (r.keyExists db name = true ∧ ViewKey.mk db name ∉ keys)) := by
  refine ⟨?_, ?_, fun r keys => rfl, removeAll_keyExists⟩
  · intro r keys ⟨k, hk, hnex⟩
    have hsome : (keys.find? (fun k2 => !(r.keyExists k2.dbName k2.viewName))).isSome := by
      rw [List.find?_isSome]
      exact ⟨k, hk, by simp [hnex]⟩
    simp only [ViewRegistry.deleteList, if_true]
    cases hfind : keys.find? (fun k2 => !(r.keyExists k2.dbName k2.viewName)) with
    | none => rw [hfind] at hsome; simp at hsome
    | some k2 => exact ⟨SqlError.nonExistingView k2.viewName, by simp [hfind]⟩
  · intro r keys hall
    have hnone : keys.find? (fun k2 => !(r.keyExists k2.dbName k2.viewName)) = none := by
      rw [List.find?_eq_none]
      intro k hk
      simp [hall k hk]
    simp [ViewRegistry.deleteList, hnone]

/-- C6: Register fails with "view already exists" exactly when the
(db, name) key is present and otherwise inserts it; View and Delete fail
with "view does not exist" exactly when the key is absent; and registering
a view then looking it up returns the identical registered view. -/
theorem viewRegistry_register_lookup :
    (∀ (r : ViewRegistry) (db : String) (v : View),
      r.register db v = Except.error (SqlError.existingView v.name) ↔
        r.keyExists db v.name = true)
    ∧ (∀ (r : ViewRegistry) (db : String) (v : View),
        r.keyExists db v.name = false →
          ∃ r2, r.register db v = Except.ok r2 ∧ r2.keyExists db v.name = true
            ∧ r2.view db v.name = Except.ok v)
    ∧ (∀ (r : ViewRegistry) (db name : String),
        r.view db name = Except.error (SqlError.nonExistingView name) ↔
          r.keyExists db name = false)
    ∧ (∀ (r : ViewRegistry) (db name : String),
        (∃ e, r.delete db name = Except.error e) ↔ r.keyExists db name = false) := by
  refine ⟨?_, ?_, ?_, ?_⟩
  · intro r db v
    constructor
    · intro h
      by_contra hne
      have hx : r.keyExists db v.name = false := by
        cases hb : r.keyExists db v.name with
        | true => exact absurd hb hne
        | false => rfl
      simp [ViewRegistry.register, hx] at h
    · intro h
      simp [ViewRegistry.register, h]
  · intro r db v h
    refine ⟨ViewRegistry.mk ((ViewKey.mk db v.name, v) :: r.views), ?_, ?_, ?_⟩
    · simp [ViewRegistry.register, h]
    · simp [ViewRegistry.keyExists]
    · simp [ViewRegistry.view, List.find?]
  · intro r db name
    constructor
    · intro h
      cases hfind : r.views.find? (fun p => p.1 == ViewKey.mk db name) with
      | none =>
        rw [List.find?_eq_none] at hfind
        simp only [ViewRegistry.keyExists]
        rw [List.any_eq_false]
        intro p hp
        exact hfind p hp
      | some p => simp [ViewRegistry.view, hfind] at h
    · intro h
      have hnone : r.views.find? (fun p => p.1 == ViewKey.mk db name) = none := by
        rw [List.find?_eq_none]
        intro p hp
        simp only [ViewRegistry.keyExists] at h
        rw [List.any_eq_false] at h
        exact h p hp
      simp [ViewRegistry.view, hnone]
  · intro r db name
    constructor
    · intro ⟨e, he⟩
      by_contra hne
      have hx : r.keyExists db name = true := by
        cases hb : r.keyExists db name with
        | true => rfl
        | false => exact absurd hb hne
      simp [ViewRegistry.delete, hx] at he
    · intro h
      exact ⟨SqlError.nonExistingView name, by simp [ViewRegistry.delete, h]⟩

/-- C7: executing a Set of a literal makes a subsequent read of the
variable return exactly the literal's declared type and value (so
`SET @@foo = 'bar'` yields `LongText`/`"bar"` and `SET @@baz = 1` yields
`Int64`/`1`), and executing a Set of a variable to DEFAULT makes a
subsequent read return exactly the `(Type, Value)` pair stored for it in
the compiled-in default session table. -/
theorem set_roundtrip :
    (∀ (defaults : List (String × SqlType × Value)) (s : Session) (name : String)
        (t : SqlType) (v : Value),
      (setExec defaults [SetField.mk name (SetValue.literal t v)] s).get
          (trimVarName name) = (t, v))
    ∧ (∀ (defaults : List (String × SqlType × Value)) (s : Session) (name : String)
        (p : String × SqlType × Value),
        defaults.find? (fun q => q.1 == trimVarName name) = some p →
          (setExec defaults [SetField.mk name SetValue.defaultColumn] s).get
            (trimVarName name) = p.2)
    ∧ ((setExec []
          [SetField.mk "foo" (SetValue.literal SqlType.longText (Value.str "bar")),
           SetField.mk "@@baz" (SetValue.literal SqlType.int64 (Value.int 1))]
          (Session.mk [])).get "foo" = (SqlType.longText, Value.str "bar")
        ∧ (setExec []
            [SetField.mk "foo" (SetValue.literal SqlType.longText (Value.str "bar")),
             SetField.mk "@@baz" (SetValue.literal SqlType.int64 (Value.int 1))]
            (Session.mk [])).get "baz" = (SqlType.int64, Value.int 1)) := by
  refine ⟨?_, ?_, by decide, by decide⟩
  · intro defaults s name t v
    simp [setExec, Session.set, Session.get, List.find?]
  · intro defaults s name p hfind
    simp [setExec, hfind, Session.set, Session.get, List.find?]

/-- Concrete run of C7's theorem: SET of a variable to DEFAULT re-reads the
default table entry `("x", Int64, 1)`. -/
theorem set_roundtrip_witness :
    (setExec [("x", SqlType.int64, Value.int 1)]
        [SetField.mk "@@x" SetValue.defaultColumn] (Session.mk [])).get
      (trimVarName "@@x") = (SqlType.int64, Value.int 1) :=
  set_roundtrip.2.1 [("x", SqlType.int64, Value.int 1)] (Session.mk []) "@@x"
    ("x", SqlType.int64, Value.int 1) (by decide)

/-- C8: every replication-control node's RowIter fails with the "no
replication controller available" error exactly when no controller is
bound — a freshly built node has none — and, once a controller is bound
via WithBinlogReplicaController, RowIter instead hands back the result of
the bound controller's corresponding operation. -/
theorem replication_controller_contract :
    (∀ opts, (NewChangeReplicationSource opts).rowIter =
        Except.error SqlError.noReplicationController)
    ∧ (∀ c : ChangeReplicationSource, c.replicaController = none →
        c.rowIter = Except.error SqlError.noReplicationController)
    ∧ (∀ (c : ChangeReplicationSource) (ctrl : BinlogReplicaController),
        (c.withController ctrl).rowIter =
          iterResult (ctrl.setReplicationSourceOptions c.options))
    ∧ (∀ opts, (NewChangeReplicationFilter opts).rowIter =
        Except.error SqlError.noReplicationController)
    ∧ (∀ c : ChangeReplicationFilter, c.replicaController = none →
        c.rowIter = Except.error SqlError.noReplicationController)
    ∧ (∀ (c : ChangeReplicationFilter) (ctrl : BinlogReplicaController),
        (c.withController ctrl).rowIter =
          iterResult (ctrl.setReplicationFilterOptions c.options))
    ∧ (NewStartReplica.rowIter = Except.error SqlError.noReplicationController)
    ∧ (∀ s : StartReplica, s.replicaController = none →
        s.rowIter = Except.error SqlError.noReplicationController)
    ∧ (∀ (s : StartReplica) (ctrl : BinlogReplicaController),
        (s.withController ctrl).rowIter = iterResult ctrl.startReplica)
    ∧ (NewStopReplica.rowIter = Except.error SqlError.noReplicationController)
    ∧ (∀ s : StopReplica, s.replicaController = none →
        s.rowIter = Except.error SqlError.noReplicationController)
    ∧ (∀ (s : StopReplica) (ctrl : BinlogReplicaController),
        (s.withController ctrl).rowIter = iterResult ctrl.stopReplica)
    ∧ (∀ all, (NewResetReplica all).rowIter =
        Except.error SqlError.noReplicationController)
    ∧ (∀ r : ResetReplica, r.replicaController = none →
        r.rowIter = Except.error SqlError.noReplicationController)
    ∧ (∀ (r : ResetReplica) (ctrl : BinlogReplicaController),
        (r.withController ctrl).rowIter = iterResult (ctrl.resetReplica r.all)) := by
  refine ⟨fun opts => rfl, ?_, fun c ctrl => rfl,
    fun opts => rfl, ?_, fun c ctrl => rfl,
    rfl, ?_, fun s ctrl => rfl,
    rfl, ?_, fun s ctrl => rfl,
    fun all => rfl, ?_, fun r ctrl => rfl⟩
  · intro c h
    simp [ChangeReplicationSource.rowIter, h]
  · intro c h
    simp [ChangeReplicationFilter.rowIter, h]
  · intro s h
    simp [StartReplica.rowIter, h]
  · intro s h
    simp [StopReplica.rowIter, h]
  · intro r h
    simp [ResetReplica.rowIter, h]

end GMS
